import Mathlib

/-! Cascade deletion of experiments and runs: a shallow embedding of the Go
package `delete` (`api/pkg/delete/delete.go`).

* A Go string is a sequence of bytes; it is embedded as a `List Char`, one
  `Char` for each byte (`GoString`).  Lengths and slice bounds count bytes.
* The collaborators of the package (`http.NewRequest`, the HTTP client with
  the JSON decoding of its responses, and the artifact store) are the fields
  of `World`.  The client and the store answer as a function of the log of
  everything the package has done so far, so an answer may change from one
  call to the next.
* Every function threads that log: it takes the log on entry and returns the
  log on exit.  `httpCall` records one `Event.call` on entry, the artifact
  store one `Event.deleteArtifact`, `fmt.Println` one print event.
* A run-time panic (a slice expression out of range) is the outcome
  `Outcome.panicked`.
* Not modelled: a nil `Client` or `GcsPackage`, the error branch of
  `json.Marshal` (it has none for structs of strings), `resp.Body.Close`.
-/

namespace Delete

/-! ## Go strings, slices and the `strings` functions used -/

/-- A Go string, as its bytes. -/
abbrev GoString := List Char

/-- The slice expression `s[n:]` of a string: a panic (`none`) when `n > len(s)`. -/
def sliceFrom (s : GoString) (n : Nat) : Option GoString :=
  if n ≤ s.length then some (s.drop n) else none

/-- A Go `[]string`: the backing array from the slice's first element on
(its length is the capacity) and the slice's length. -/
structure GoSlice where
  arr : List GoString
  len : Nat
  deriving DecidableEq, Repr

/-- Capacity of a slice. -/
def GoSlice.cap (a : GoSlice) : Nat := a.arr.length

/-- The slice expression `a[lo:hi]` read as its elements: it panics (`none`)
unless `lo ≤ hi ≤ cap(a)`; the bound is the capacity, not the length. -/
def GoSlice.slice (a : GoSlice) (lo hi : Nat) : Option (List GoString) :=
  if lo ≤ hi ∧ hi ≤ a.cap then some ((a.arr.take hi).drop lo) else none

/-- Go `strings.IndexByte`: position of the first byte equal to `b`. -/
def IndexByte : GoString → Char → Option Nat
  | [], _ => none
  | c :: cs, b => if c = b then some 0 else (IndexByte cs b).map (· + 1)

/-- The loop of `strings.genSplit` for a one-byte separator: `k` is the number
of cuts still allowed (`n - 1 - i`); the result is `a[0..i]`. -/
def genSplitLoop (sep : Char) : Nat → GoString → List GoString
  | 0, s => [s]
  | k + 1, s =>
    match IndexByte s sep with
    | none => [s]
    | some m => s.take m :: genSplitLoop sep k (s.drop (m + 1))

/-- Go `strings.SplitN(s, sep, n)` for a one-byte separator and `n ≥ 0`.
The array is allocated with `min n (len(s)+1)` entries, all `""`, and the
result is its initial segment that the loop filled. -/
def SplitN (s : GoString) (sep : Char) (n : Nat) : GoSlice :=
  if n = 0 then ⟨[], 0⟩
  else
    let n1 := if n > s.length + 1 then s.length + 1 else n
    let filled := genSplitLoop sep (n1 - 1) s
    ⟨filled ++ List.replicate (n1 - filled.length) [], filled.length⟩

/-- Go `strings.Join`. -/
def Join : List GoString → GoString → GoString
  | [], _ => []
  | [e], _ => e
  | e :: es, sep => e ++ sep ++ Join es sep

/-! ## Errors and `fmt.Errorf` -/

/-- A Go `error` value: one handed over by a collaborator, known by its text,
or the value `fmt.Errorf(format)` built by `httpCall` (no operands). -/
inductive GoError where
  | other (text : GoString)
  | errorf (format : GoString)
  deriving DecidableEq, Repr

/-- The flag bytes `fmt` accepts after a percent sign. -/
def isFlag (c : Char) : Bool :=
  c = '#' || c = '0' || c = '+' || c = '-' || c = ' '

/-- Go `fmt` formatting of `format` with no operands (`doPrintf(format, nil)`).
The flag says whether a percent sign has been read and its verb is awaited.
Literal bytes are copied; a directive made of flags and a one-byte verb prints
`%` for the verb `%` and `%!v(MISSING)` for any other verb `v`; a format that
ends inside a directive prints `%!(NOVERB)`.  Directives with a width, a
precision or an argument index, and verbs outside ASCII, are not modelled
(`none`). -/
def doPrintf : Bool → GoString → Option GoString
  | false, [] => some []
  | false, c :: cs =>
    if c = '%' then doPrintf true cs else (doPrintf false cs).map (c :: ·)
  | true, [] => some "%!(NOVERB)".toList
  | true, c :: cs =>
    if isFlag c then doPrintf true cs
    else if c = '[' || c = '*' || c = '.' || c.isDigit || decide (128 ≤ c.toNat) then none
    else if c = '%' then (doPrintf false cs).map ('%' :: ·)
    else (doPrintf false cs).map (fun r => "%!".toList ++ c :: "(MISSING)".toList ++ r)

/-- The text `err.Error()` of an error value. -/
def GoError.Error : GoError → Option GoString
  | .other text => some text
  | .errorf format => doPrintf false format

/-! ## Data model -/

structure deleteExperimentErrorResponse where
  ErrorCode : GoString
  Message : GoString
  deriving DecidableEq, Repr

structure tagRun where
  Key : GoString
  Value : GoString
  deriving DecidableEq, Repr

structure dataRun where
  Tags : List tagRun
  deriving DecidableEq, Repr

structure infoRun where
  RunId : GoString
  ExperimentId : GoString
  UserId : GoString
  LifecycleStage : GoString
  ArtifactURI : GoString
  deriving DecidableEq, Repr

structure runResponse where
  Info : infoRun
  Data : dataRun
  deriving DecidableEq, Repr

structure searchRunsResponse where
  RunsData : List runResponse
  deriving DecidableEq, Repr

structure searchRunResponse where
  RunData : runResponse
  deriving DecidableEq, Repr

/-- The zero value of `runResponse`. -/
def runResponse.zero : runResponse := ⟨⟨[], [], [], [], []⟩, ⟨[]⟩⟩

/-- A request body: the value handed to `json.Marshal` (a struct of strings,
for which `json.Marshal` returns no error). -/
inductive Payload where
  | deleteExperimentRequest (ExperimentId : GoString)
  | deleteRunRequest (RunId : GoString)
  | searchRunRequest (ExperimentId : List GoString)
  deriving DecidableEq, Repr

/-- What the package does to the outside, in order. -/
inductive Event where
  | call (method url : GoString) (headers : List (GoString × GoString)) (body : Option Payload)
  | println (ids : List GoString)
  | printRun (run : searchRunResponse)
  | deleteArtifact (path : GoString)
  deriving DecidableEq, Repr

/-- An HTTP response: its status code and what `json.NewDecoder(resp.Body).Decode`
yields for each of the three types the package decodes into. -/
structure Response where
  StatusCode : Int
  errorBody : Except GoError deleteExperimentErrorResponse
  runsBody : Except GoError searchRunsResponse
  runBody : Except GoError searchRunResponse

/-- The collaborators of `deleteClient`: `Config.TrackingURL`, `http.NewRequest`,
`Client.Do` and `GcsPackage.DeleteArtifact`.  `Do` and `DeleteArtifact` see the
log up to and including the call they answer. -/
structure World where
  TrackingURL : GoString
  NewRequest : GoString → GoString → Option GoError
  Do : List Event → GoString → GoString → List (GoString × GoString) → Option Payload →
    Except GoError Response
  DeleteArtifact : List Event → GoString → Option GoError

/-- How a call ends: it returns an `error` (`none` is `nil`) or it panics. -/
inductive Outcome where
  | returned (err : Option GoError)
  | panicked
  deriving DecidableEq, Repr

/-! ## The package -/

/-- The header map every POST carries. -/
def jsonHeaders : List (GoString × GoString) :=
  [("Content-Type".toList, "application/json".toList)]

/-- Go `httpCall`.  Returns the error, the value decoded into `response` (when
one was decoded) and the log. -/
def httpCall {α : Type} (w : World) (log : List Event) (method url : GoString)
    (headers : List (GoString × GoString)) (body : Option Payload)
    (response : Option (Response → Except GoError α)) :
    Option GoError × Option α × List Event :=
  let log1 := log ++ [Event.call method url headers body]
  match w.NewRequest method url with
  | some err => (some err, none, log1)
  | none =>
    match w.Do log1 method url headers body with
    | .error err => (some err, none, log1)
    | .ok resp =>
      if ¬ (200 ≤ resp.StatusCode ∧ resp.StatusCode < 300) then
        match resp.errorBody with
        | .error err => (some err, none, log1)
        | .ok errMessage => (some (GoError.errorf errMessage.Message), none, log1)
      else
        match response with
        | some decode =>
          match decode resp with
          | .error err => (some err, none, log1)
          | .ok v => (none, some v, log1)
        | none => (none, none, log1)

/-- Go `SearchRunForExperiment`. -/
def SearchRunForExperiment (w : World) (log : List Event) (idExperiment : GoString) :
    searchRunsResponse × Option GoError × List Event :=
  let searchRunURL := w.TrackingURL ++ "/api/2.0/mlflow/runs/search".toList
  match httpCall w log "POST".toList searchRunURL jsonHeaders
      (some (Payload.searchRunRequest [idExperiment])) (some Response.runsBody) with
  | (some err, responseObject, log1) => (responseObject.getD ⟨[]⟩, some err, log1)
  | (none, responseObject, log1) => (responseObject.getD ⟨[]⟩, none, log1)

/-- Go `SearchRunData`. -/
def SearchRunData (w : World) (log : List Event) (idRun : GoString) :
    searchRunResponse × Option GoError × List Event :=
  let getRunURL := w.TrackingURL ++ "/api/2.0/mlflow/runs/get?run_id=".toList ++ idRun
  match httpCall w log "GET".toList getRunURL [] none (some Response.runBody) with
  | (some err, decoded, log1) => (decoded.getD ⟨runResponse.zero⟩, some err, log1)
  | (none, decoded, log1) => (decoded.getD ⟨runResponse.zero⟩, none, log1)

/-- Go `DeleteRun`. -/
def DeleteRun (w : World) (log : List Event) (idRun : GoString) (delArtifact : Bool) :
    Outcome × List Event :=
  let delRunURL := w.TrackingURL ++ "/api/2.0/mlflow/runs/delete".toList
  match httpCall (α := Unit) w log "POST".toList delRunURL jsonHeaders
      (some (Payload.deleteRunRequest idRun)) none with
  | (some err, _, log1) => (Outcome.returned (some err), log1)
  | (none, _, log1) =>
    if delArtifact then
      match SearchRunData w log1 idRun with
      | (_, some err, log2) => (Outcome.returned (some err), log2)
      | (runDetail, none, log2) =>
        let log3 := log2 ++ [Event.printRun runDetail]
        match sliceFrom runDetail.RunData.Info.ArtifactURI 5 with
        | none => (Outcome.panicked, log3)
        | some path =>
          let log4 := log3 ++ [Event.deleteArtifact path]
          match w.DeleteArtifact log4 path with
          | some _ => (Outcome.returned none, log4)
          | none => (Outcome.returned none, log4)
    else (Outcome.returned none, log1)

/-- The `for _, run := range relatedRunId.RunsData` loop of `DeleteExperiment`:
the state is `deletedRunId`, `failDeletedRunId` and the log; `none` when a
`DeleteRun` panicked. -/
def deleteRunsLoop (w : World) :
    List runResponse → List GoString × List GoString × List Event →
    Option (List GoString × List GoString) × List Event
  | [], (deletedRunId, failDeletedRunId, log) => (some (deletedRunId, failDeletedRunId), log)
  | run :: rest, (deletedRunId, failDeletedRunId, log) =>
    match DeleteRun w log run.Info.RunId false with
    | (Outcome.panicked, log1) => (none, log1)
    | (Outcome.returned (some _), log1) =>
      deleteRunsLoop w rest (deletedRunId, failDeletedRunId ++ [run.Info.RunId], log1)
    | (Outcome.returned none, log1) =>
      deleteRunsLoop w rest (deletedRunId ++ [run.Info.RunId], failDeletedRunId, log1)

/-- Go `DeleteExperiment`.  The parameter `deleteArtifact` is not read by the
body, as in the source. -/
def DeleteExperiment (w : World) (log : List Event) (idExperiment : GoString)
    (_deleteArtifact : Bool) : Outcome × List Event :=
  let delExpURL := w.TrackingURL ++ "/api/2.0/mlflow/experiments/delete".toList
  match httpCall (α := Unit) w log "POST".toList delExpURL jsonHeaders
      (some (Payload.deleteExperimentRequest idExperiment)) none with
  | (some err, _, log1) => (Outcome.returned (some err), log1)
  | (none, _, log1) =>
    match SearchRunForExperiment w log1 idExperiment with
    | (_, some err, log2) => (Outcome.returned (some err), log2)
    | (relatedRunId, none, log2) =>
      match deleteRunsLoop w relatedRunId.RunsData ([], [], log2) with
      | (none, log3) => (Outcome.panicked, log3)
      | (some (deletedRunId, failDeletedRunId), log3) =>
        let log4 := log3 ++ [Event.println failDeletedRunId, Event.println deletedRunId]
        match relatedRunId.RunsData with
        | [] => (Outcome.returned none, log4)
        | run0 :: _ =>
          match sliceFrom run0.Info.ArtifactURI 5 with
          | none => (Outcome.panicked, log4)
          | some path =>
            let splitPath := SplitN path '/' 4
            match splitPath.slice 0 3 with
            | none => (Outcome.panicked, log4)
            | some parts =>
              let folderPath := Join parts "/".toList
              let log5 := log4 ++ [Event.deleteArtifact folderPath]
              match w.DeleteArtifact log5 folderPath with
              | some err => (Outcome.returned (some err), log5)
              | none => (Outcome.returned none, log5)

/-! ## The gateway operations, as the package issues them -/

/-- The `deleteExperimentRecord` request of `DeleteExperiment`, as a log entry. -/
def deleteExperimentCall (w : World) (id : GoString) : Event :=
  Event.call "POST".toList (w.TrackingURL ++ "/api/2.0/mlflow/experiments/delete".toList)
    jsonHeaders (some (Payload.deleteExperimentRequest id))

/-- The `deleteRunRecord` request of `DeleteRun`, as a log entry. -/
def deleteRunCall (w : World) (id : GoString) : Event :=
  Event.call "POST".toList (w.TrackingURL ++ "/api/2.0/mlflow/runs/delete".toList)
    jsonHeaders (some (Payload.deleteRunRequest id))

/-- The `searchRunsByExperiment` request of `SearchRunForExperiment`, as a log entry. -/
def searchRunsCall (w : World) (id : GoString) : Event :=
  Event.call "POST".toList (w.TrackingURL ++ "/api/2.0/mlflow/runs/search".toList)
    jsonHeaders (some (Payload.searchRunRequest [id]))

/-- The `fetchRun` request of `SearchRunData`, as a log entry. -/
def fetchRunCall (w : World) (id : GoString) : Event :=
  Event.call "GET".toList (w.TrackingURL ++ "/api/2.0/mlflow/runs/get?run_id=".toList ++ id)
    [] none

/-- Error of `deleteExperimentRecord(id)` issued at `log` (`none`: it succeeded). -/
def deleteExperimentRecord (w : World) (log : List Event) (id : GoString) : Option GoError :=
  (httpCall (α := Unit) w log "POST".toList
    (w.TrackingURL ++ "/api/2.0/mlflow/experiments/delete".toList) jsonHeaders
    (some (Payload.deleteExperimentRequest id)) none).1

/-- Error of `deleteRunRecord(id)` issued at `log` (`none`: it succeeded). -/
def deleteRunRecord (w : World) (log : List Event) (id : GoString) : Option GoError :=
  (httpCall (α := Unit) w log "POST".toList
    (w.TrackingURL ++ "/api/2.0/mlflow/runs/delete".toList) jsonHeaders
    (some (Payload.deleteRunRequest id)) none).1

/-- The artifact-store deletions of a log, in order. -/
def artifactDeletions : List Event → List GoString
  | [] => []
  | Event.deleteArtifact path :: rest => path :: artifactDeletions rest
  | _ :: rest => artifactDeletions rest

/-- The HTTP calls of a log, in order. -/
def httpCalls : List Event → List Event
  | [] => []
  | Event.call m u h b :: rest => Event.call m u h b :: httpCalls rest
  | _ :: rest => httpCalls rest

/-- For each run id in turn, whether its `deleteRunRecord` fails; the first is
asked at `log`, each next one at the log extended by the calls before it. -/
def runDeleteFails (w : World) : List Event → List GoString → List Bool
  | _, [] => []
  | log, id :: ids =>
    (deleteRunRecord w log id).isSome :: runDeleteFails w (log ++ [deleteRunCall w id]) ids

/-- The ids whose position carries the given mark. -/
def idsMarked (mark : Bool) (ids : List GoString) (fails : List Bool) : List GoString :=
  ((ids.zip fails).filter (fun p => p.2 == mark)).map Prod.fst

/-- The path segments of a storage path: the pieces between the `/` bytes.
This definition follows the spec's words, not the code. -/
def segments : GoString → List GoString
  | [] => [[]]
  | c :: cs =>
    if c = '/' then [] :: segments cs
    else
      match segments cs with
      | [] => [[c]]
      | seg :: rest => (c :: seg) :: rest

/-- The experiment's artifact root as the spec words it: strip the first five
bytes of the URI, take the first three segments, rejoin them with `/`. -/
def artifactRoot (uri : GoString) : GoString :=
  "/".toList.intercalate ((segments (uri.drop 5)).take 3)

/-- A well-formed artifact URI: at least five bytes, and at least three
segments after the first five bytes. -/
def WellFormedURI (uri : GoString) : Prop :=
  5 ≤ uri.length ∧ 3 ≤ (segments (uri.drop 5)).length

instance (uri : GoString) : Decidable (WellFormedURI uri) := by
  unfold WellFormedURI; infer_instance

/-- What `DeleteExperiment` does after the loop, given the runs found and the
log so far (the `if len(relatedRunId.RunsData) > 0` block and the final return). -/
def experimentArtifactStep (w : World) (log4 : List Event) (runs : List runResponse) :
    Outcome × List Event :=
  match runs with
  | [] => (Outcome.returned none, log4)
  | run0 :: _ =>
    match sliceFrom run0.Info.ArtifactURI 5 with
    | none => (Outcome.panicked, log4)
    | some path =>
      match (SplitN path '/' 4).slice 0 3 with
      | none => (Outcome.panicked, log4)
      | some parts =>
        match w.DeleteArtifact (log4 ++ [Event.deleteArtifact (Join parts "/".toList)])
            (Join parts "/".toList) with
        | some err =>
          (Outcome.returned (some err), log4 ++ [Event.deleteArtifact (Join parts "/".toList)])
        | none => (Outcome.returned none, log4 ++ [Event.deleteArtifact (Join parts "/".toList)])

/-- The log of `DeleteExperiment` when its loop is over, for the ids found. -/
def logAfterLoop (w : World) (log : List Event) (id : GoString) (ids : List GoString) :
    List Event :=
  log ++ [deleteExperimentCall w id, searchRunsCall w id] ++ ids.map (deleteRunCall w)
    ++ [Event.println (idsMarked true ids
          (runDeleteFails w (log ++ [deleteExperimentCall w id, searchRunsCall w id]) ids)),
        Event.println (idsMarked false ids
          (runDeleteFails w (log ++ [deleteExperimentCall w id, searchRunsCall w id]) ids))]

/-- Error of the search `DeleteExperiment` issues after its experiment delete
(`none`: it succeeded). -/
def searchError (w : World) (log : List Event) (id : GoString) : Option GoError :=
  (SearchRunForExperiment w (log ++ [deleteExperimentCall w id]) id).2.1

/-- The runs that search returns. -/
def searchedRuns (w : World) (log : List Event) (id : GoString) : List runResponse :=
  (SearchRunForExperiment w (log ++ [deleteExperimentCall w id]) id).1.RunsData

/-- Error of the fetch `DeleteRun` issues after its run delete (`none`: it succeeded). -/
def fetchError (w : World) (log : List Event) (id : GoString) : Option GoError :=
  (SearchRunData w (log ++ [deleteRunCall w id]) id).2.1

/-- The run that fetch returns. -/
def fetchedRun (w : World) (log : List Event) (id : GoString) : searchRunResponse :=
  (SearchRunData w (log ++ [deleteRunCall w id]) id).1

/-- The ids of the runs that search returns, in the order returned. -/
def foundIds (w : World) (log : List Event) (id : GoString) : List GoString :=
  (searchedRuns w log id).map (·.Info.RunId)

/-- For each found run in turn, whether its `deleteRunRecord` fails in the loop
of `DeleteExperiment`. -/
def runOutcomes (w : World) (log : List Event) (id : GoString) : List Bool :=
  runDeleteFails w (log ++ [deleteExperimentCall w id, searchRunsCall w id]) (foundIds w log id)

/-! ## A scripted world for the examples -/

/-- A tracking store that answers 404 with the structured error `message` to
the delete of every run or experiment id in `failing` and 200 to everything else, lists
`runs` on search and returns `fetched` on a run fetch; the artifact store
answers `artifactErr`. -/
def scriptedWorld (failing : List GoString) (message : GoString) (runs : List runResponse)
    (fetched : runResponse) (artifactErr : Option GoError) : World where
  TrackingURL := "http://mlflow".toList
  NewRequest := fun _ _ => none
  Do := fun _ _ _ _ body =>
    match body with
    | some (Payload.deleteRunRequest id) | some (Payload.deleteExperimentRequest id) =>
      if id ∈ failing then
        Except.ok ⟨404, Except.ok ⟨"RESOURCE_DOES_NOT_EXIST".toList, message⟩,
          Except.ok ⟨[]⟩, Except.ok ⟨runResponse.zero⟩⟩
      else
        Except.ok ⟨200, Except.ok ⟨[], []⟩, Except.ok ⟨[]⟩, Except.ok ⟨runResponse.zero⟩⟩
    | _ => Except.ok ⟨200, Except.ok ⟨[], []⟩, Except.ok ⟨runs⟩, Except.ok ⟨fetched⟩⟩
  DeleteArtifact := fun _ _ => artifactErr

/-- A run with the given id and artifact URI in experiment `12`. -/
def mkRun (id uri : String) : runResponse :=
  ⟨⟨id.toList, "12".toList, "user".toList, "active".toList, uri.toList⟩, ⟨[]⟩⟩

/-- Three runs of experiment `12`. -/
def threeRuns : List runResponse :=
  [mkRun "r1" "gs://bucket/mlflow/12/abc/artifacts",
   mkRun "r2" "gs://bucket/mlflow/12/def/artifacts",
   mkRun "r3" "gs://bucket/mlflow/12/ghi/artifacts"]

/-- A world where experiment `12` has three runs and everything succeeds. -/
def worldAllGood : World :=
  scriptedWorld [] [] threeRuns (mkRun "r1" "gs://bucket/mlflow/12/abc/artifacts") none

/-- A world where experiment `12` has three runs and deleting `r2` fails. -/
def worldR2Fails : World :=
  scriptedWorld ["r2".toList] "Run not found".toList threeRuns
    (mkRun "r2" "gs://bucket/mlflow/12/def/artifacts") none

/-- A world where deleting experiment `12` fails. -/
def worldExperimentFails : World :=
  scriptedWorld ["12".toList] "Experiment not found".toList threeRuns
    (mkRun "r1" "gs://bucket/mlflow/12/abc/artifacts") none

/-- A world where experiment `12` has no runs. -/
def worldNoRuns : World :=
  scriptedWorld [] [] [] runResponse.zero none

/-- A world where everything succeeds except the artifact store. -/
def worldArtifactFails : World :=
  scriptedWorld [] [] threeRuns (mkRun "r1" "gs://bucket/mlflow/12/abc/artifacts")
    (some (GoError.other "storage: permission denied".toList))

/-- A world whose only run carries the artifact URI `gs:`, three bytes long. -/
def worldShortURI : World :=
  scriptedWorld [] [] [mkRun "r1" "gs:"] (mkRun "r1" "gs:") none

/-- A world where experiment `12` has three runs and deleting each of them fails. -/
def worldAllRunsFail : World :=
  scriptedWorld ["r1".toList, "r2".toList, "r3".toList] "Run not found".toList threeRuns
    (mkRun "r1" "gs://bucket/mlflow/12/abc/artifacts") none

/-- A world where deleting `r1` fails with a message that has a percent sign. -/
def worldPercent : World :=
  scriptedWorld ["r1".toList] "100% done".toList threeRuns
    (mkRun "r1" "gs://bucket/mlflow/12/abc/artifacts") none

/-! ## Basic facts -/

/-- The log `httpCall` returns is the log it was given plus its own call. -/
theorem httpCall_log {α : Type} (w : World) (log : List Event) (method url : GoString)
    (headers : List (GoString × GoString)) (body : Option Payload)
    (response : Option (Response → Except GoError α)) :
    (httpCall w log method url headers body response).2.2
      = log ++ [Event.call method url headers body] := by
  unfold httpCall
  dsimp only
  repeat (first | rfl | split)

/-- With artifact deletion switched off, `DeleteRun` is `deleteRunRecord`. -/
theorem DeleteRun_false (w : World) (log : List Event) (id : GoString) :
    DeleteRun w log id false
      = (Outcome.returned (deleteRunRecord w log id), log ++ [deleteRunCall w id]) := by
  unfold DeleteRun deleteRunRecord deleteRunCall
  dsimp only
  have hl := httpCall_log (α := Unit) w log "POST".toList
    (w.TrackingURL ++ "/api/2.0/mlflow/runs/delete".toList) jsonHeaders
    (some (Payload.deleteRunRequest id)) none
  revert hl
  generalize httpCall (α := Unit) w log "POST".toList
    (w.TrackingURL ++ "/api/2.0/mlflow/runs/delete".toList) jsonHeaders
    (some (Payload.deleteRunRequest id)) none = r
  rcases r with ⟨e, v, l⟩
  rintro rfl
  cases e <;> simp

/-! ## `SplitN` against the segments of the spec -/

theorem segments_ne_nil (s : GoString) : segments s ≠ [] := by
  cases s with
  | nil => simp [segments]
  | cons c cs =>
    unfold segments
    split
    · simp
    · split <;> simp

theorem IndexByte_lt {s : GoString} {b : Char} {m : Nat} (h : IndexByte s b = some m) :
    m < s.length := by
  induction s generalizing m with
  | nil => simp [IndexByte] at h
  | cons c cs ih =>
    unfold IndexByte at h
    split at h
    · cases h; simp
    · cases hi : IndexByte cs b with
      | none => simp [hi] at h
      | some k =>
        simp [hi] at h
        subst h
        have := ih hi
        simp
        omega

theorem segments_of_IndexByte_none {s : GoString} (h : IndexByte s '/' = none) :
    segments s = [s] := by
  induction s with
  | nil => rfl
  | cons c cs ih =>
    unfold IndexByte at h
    split at h
    · cases h
    · rename_i hc
      have hi : IndexByte cs '/' = none := by
        cases hi : IndexByte cs '/' with
        | none => rfl
        | some k => simp [hi] at h
      unfold segments
      simp [hc, ih hi]

theorem segments_of_IndexByte_some {s : GoString} {m : Nat} (h : IndexByte s '/' = some m) :
    segments s = s.take m :: segments (s.drop (m + 1)) := by
  induction s generalizing m with
  | nil => simp [IndexByte] at h
  | cons c cs ih =>
    unfold IndexByte at h
    split at h
    · rename_i hc
      cases h
      subst hc
      simp [segments]
    · rename_i hc
      cases hi : IndexByte cs '/' with
      | none => simp [hi] at h
      | some k =>
        simp [hi] at h
        subst h
        rw [segments]
        simp [hc, ih hi]

/-- Up to the number of cuts allowed, the pieces `genSplit` cuts are the segments. -/
theorem genSplitLoop_take (k : Nat) (s : GoString) :
    (genSplitLoop '/' k s).take k = (segments s).take k := by
  induction k generalizing s with
  | zero => simp
  | succ k ih =>
    unfold genSplitLoop
    cases hi : IndexByte s '/' with
    | none => simp [segments_of_IndexByte_none hi]
    | some m => simp [segments_of_IndexByte_some hi, ih]

/-- With as many cuts allowed as the string has bytes, `genSplit` cuts all the segments. -/
theorem genSplitLoop_full (k : Nat) (s : GoString) (h : s.length ≤ k) :
    genSplitLoop '/' k s = segments s := by
  induction k generalizing s with
  | zero =>
    have : s = [] := List.length_eq_zero.mp (Nat.le_zero.mp h)
    subst this
    rfl
  | succ k ih =>
    unfold genSplitLoop
    cases hi : IndexByte s '/' with
    | none => simp [segments_of_IndexByte_none hi]
    | some m =>
      have hm := IndexByte_lt hi
      have hd : (s.drop (m + 1)).length ≤ k := by
        simp
        omega
      simp [segments_of_IndexByte_some hi, ih _ hd]

/-- On a path of at least three segments, `SplitN(path, "/", 4)[0:3]` does not
panic and is the first three segments. -/
theorem SplitN_slice (s : GoString) (h : 3 ≤ (segments s).length) :
    (SplitN s '/' 4).slice 0 3 = some ((segments s).take 3) := by
  unfold SplitN GoSlice.slice GoSlice.cap
  by_cases hl : 4 > s.length + 1
  · have hf : genSplitLoop '/' (s.length + 1 - 1) s = segments s :=
      genSplitLoop_full _ _ (by omega)
    simp only [hl, if_true, hf]
    simp
    constructor
    · omega
    · exact Or.inr h
  · have ht := genSplitLoop_take 3 s
    have hlen : 3 ≤ (genSplitLoop '/' 3 s).length := by
      have := congrArg List.length ht
      simp at this
      omega
    simp only [hl, if_false]
    simp
    constructor
    · omega
    · rw [List.take_append_of_le_length hlen, ht]

theorem Join_eq_intercalate (l : List GoString) (sep : GoString) :
    Join l sep = sep.intercalate l := by
  induction l with
  | nil => rfl
  | cons e es ih =>
    cases es with
    | nil => simp [Join, List.intercalate]
    | cons e2 es2 =>
      show e ++ sep ++ Join (e2 :: es2) sep = _
      rw [ih]
      simp [List.intercalate, List.intersperse]

/-! ## The per-run loop and the shape of `DeleteExperiment` -/

/-- The log `SearchRunForExperiment` returns is the log it was given plus its call. -/
theorem SearchRunForExperiment_log (w : World) (log : List Event) (id : GoString) :
    (SearchRunForExperiment w log id).2.2 = log ++ [searchRunsCall w id] := by
  unfold SearchRunForExperiment searchRunsCall
  dsimp only
  have hl := httpCall_log w log "POST".toList
    (w.TrackingURL ++ "/api/2.0/mlflow/runs/search".toList) jsonHeaders
    (some (Payload.searchRunRequest [id])) (some Response.runsBody)
  revert hl
  generalize httpCall w log "POST".toList
    (w.TrackingURL ++ "/api/2.0/mlflow/runs/search".toList) jsonHeaders
    (some (Payload.searchRunRequest [id])) (some Response.runsBody) = r
  rcases r with ⟨e, v, l⟩
  rintro rfl
  cases e <;> simp

/-- The log `SearchRunData` returns is the log it was given plus its call. -/
theorem SearchRunData_log (w : World) (log : List Event) (id : GoString) :
    (SearchRunData w log id).2.2 = log ++ [fetchRunCall w id] := by
  unfold SearchRunData fetchRunCall
  dsimp only
  have hl := httpCall_log w log "GET".toList
    (w.TrackingURL ++ "/api/2.0/mlflow/runs/get?run_id=".toList ++ id) []
    none (some Response.runBody)
  revert hl
  generalize httpCall w log "GET".toList
    (w.TrackingURL ++ "/api/2.0/mlflow/runs/get?run_id=".toList ++ id) []
    none (some Response.runBody) = r
  rcases r with ⟨e, v, l⟩
  rintro rfl
  cases e <;> simp

/-- The loop never panics, calls `deleteRunRecord` once for each run in order,
and sorts each id by the outcome of its own call. -/
theorem deleteRunsLoop_eq (w : World) (runs : List runResponse)
    (deleted failed : List GoString) (log : List Event) :
    deleteRunsLoop w runs (deleted, failed, log)
      = (some (deleted ++ idsMarked false (runs.map (·.Info.RunId))
                  (runDeleteFails w log (runs.map (·.Info.RunId))),
               failed ++ idsMarked true (runs.map (·.Info.RunId))
                  (runDeleteFails w log (runs.map (·.Info.RunId)))),
         log ++ (runs.map (·.Info.RunId)).map (deleteRunCall w)) := by
  induction runs generalizing deleted failed log with
  | nil => simp [deleteRunsLoop, idsMarked, runDeleteFails]
  | cons run rest ih =>
    unfold deleteRunsLoop
    rw [DeleteRun_false]
    cases h : deleteRunRecord w log run.Info.RunId with
    | none => simp [ih, runDeleteFails, idsMarked, h]
    | some err => simp [ih, runDeleteFails, idsMarked, h]

/-- When the experiment delete fails, `DeleteExperiment` returns at once. -/
theorem DeleteExperiment_of_record_error (w : World) (log : List Event) (id : GoString)
    (flag : Bool) (err : GoError) (h : deleteExperimentRecord w log id = some err) :
    DeleteExperiment w log id flag
      = (Outcome.returned (some err), log ++ [deleteExperimentCall w id]) := by
  unfold deleteExperimentRecord at h
  unfold DeleteExperiment deleteExperimentCall
  dsimp only
  have hl := httpCall_log (α := Unit) w log "POST".toList
    (w.TrackingURL ++ "/api/2.0/mlflow/experiments/delete".toList) jsonHeaders
    (some (Payload.deleteExperimentRequest id)) none
  revert hl h
  generalize httpCall (α := Unit) w log "POST".toList
    (w.TrackingURL ++ "/api/2.0/mlflow/experiments/delete".toList) jsonHeaders
    (some (Payload.deleteExperimentRequest id)) none = r
  rcases r with ⟨e, v, l⟩
  rintro h rfl
  simp at h
  subst h
  simp

/-- When the experiment delete and the search succeed, `DeleteExperiment` runs
the loop over every run found and then the artifact step. -/
theorem DeleteExperiment_of_search (w : World) (log : List Event) (id : GoString)
    (flag : Bool) (hExp : deleteExperimentRecord w log id = none)
    (hSearch : searchError w log id = none) :
    DeleteExperiment w log id flag
      = experimentArtifactStep w
          (logAfterLoop w log id ((searchedRuns w log id).map (·.Info.RunId)))
          (searchedRuns w log id) := by
  unfold deleteExperimentRecord at hExp
  unfold searchError at hSearch
  unfold searchedRuns
  unfold DeleteExperiment
  dsimp only
  have hl := httpCall_log (α := Unit) w log "POST".toList
    (w.TrackingURL ++ "/api/2.0/mlflow/experiments/delete".toList) jsonHeaders
    (some (Payload.deleteExperimentRequest id)) none
  revert hl hExp
  generalize httpCall (α := Unit) w log "POST".toList
    (w.TrackingURL ++ "/api/2.0/mlflow/experiments/delete".toList) jsonHeaders
    (some (Payload.deleteExperimentRequest id)) none = r
  rcases r with ⟨e, v, l⟩
  rintro hExp hl
  simp at hExp hl
  subst hExp hl
  have hl2 := SearchRunForExperiment_log w (log ++ [deleteExperimentCall w id]) id
  revert hl2 hSearch
  show _ → _ → (match SearchRunForExperiment w (log ++ [deleteExperimentCall w id]) id with
    | (_, some err, log2) => _
    | (relatedRunId, none, log2) => _) = _
  generalize SearchRunForExperiment w (log ++ [deleteExperimentCall w id]) id = r
  rcases r with ⟨resp, e, l⟩
  rintro hSearch hl2
  simp at hSearch hl2
  subst hSearch hl2
  simp only [deleteRunsLoop_eq]
  unfold experimentArtifactStep logAfterLoop
  simp

/-! ## Reading a log -/

theorem artifactDeletions_append (a b : List Event) :
    artifactDeletions (a ++ b) = artifactDeletions a ++ artifactDeletions b := by
  induction a with
  | nil => rfl
  | cons e rest ih => cases e <;> simp [artifactDeletions, ih]

theorem httpCalls_append (a b : List Event) :
    httpCalls (a ++ b) = httpCalls a ++ httpCalls b := by
  induction a with
  | nil => rfl
  | cons e rest ih => cases e <;> simp [httpCalls, ih]

theorem artifactDeletions_deleteRunCalls (w : World) (ids : List GoString) :
    artifactDeletions (ids.map (deleteRunCall w)) = [] := by
  induction ids with
  | nil => rfl
  | cons id rest ih => simpa [artifactDeletions, deleteRunCall] using ih

theorem artifactDeletions_logAfterLoop (w : World) (log : List Event) (id : GoString)
    (ids : List GoString) :
    artifactDeletions (logAfterLoop w log id ids) = artifactDeletions log := by
  unfold logAfterLoop
  simp [artifactDeletions_append, artifactDeletions_deleteRunCalls, artifactDeletions,
    deleteExperimentCall, searchRunsCall]

theorem runDeleteFails_length (w : World) (log : List Event) (ids : List GoString) :
    (runDeleteFails w log ids).length = ids.length := by
  induction ids generalizing log with
  | nil => rfl
  | cons id rest ih => simp [runDeleteFails, ih]

/-- The mark at position `i` is the outcome of `deleteRunRecord` for the `i`-th
id, asked after the calls for the ids before it. -/
theorem runDeleteFails_getElem? (w : World) (log : List Event) (ids : List GoString) (i : Nat) :
    (runDeleteFails w log ids)[i]?
      = ids[i]?.map (fun id =>
          (deleteRunRecord w (log ++ (ids.take i).map (deleteRunCall w)) id).isSome) := by
  induction ids generalizing log i with
  | nil => simp [runDeleteFails]
  | cons id rest ih =>
    cases i with
    | zero => simp [runDeleteFails]
    | succ i => simp [runDeleteFails, ih]

/-- The failed ids and the succeeded ids together are the ids, each once. -/
theorem idsMarked_perm (ids : List GoString) (fails : List Bool)
    (h : fails.length = ids.length) :
    (idsMarked true ids fails ++ idsMarked false ids fails).Perm ids := by
  unfold idsMarked
  rw [← List.map_append]
  have hz : (ids.zip fails).map Prod.fst = ids := List.map_fst_zip _ _ (by omega)
  have hp : ((ids.zip fails).filter (fun p => p.2 == true)
      ++ (ids.zip fails).filter (fun p => p.2 == false)).Perm (ids.zip fails) := by
    have := List.filter_append_perm (fun p : GoString × Bool => p.2 == true) (ids.zip fails)
    have he : (fun p : GoString × Bool => p.2 == false)
        = (fun p : GoString × Bool => !(p.2 == true)) := by
      funext p
      cases p.2 <;> rfl
    rw [he]
    exact this
  have := hp.map Prod.fst
  rwa [hz] at this

/-! ## The artifact step -/

/-- On a well-formed URI the artifact root the code derives is the one the spec words. -/
theorem experimentArtifactStep_wellFormed (w : World) (log4 : List Event) (run : runResponse)
    (rest : List runResponse) (hWF : WellFormedURI run.Info.ArtifactURI) :
    experimentArtifactStep w log4 (run :: rest)
      = (Outcome.returned
          (w.DeleteArtifact (log4 ++ [Event.deleteArtifact (artifactRoot run.Info.ArtifactURI)])
            (artifactRoot run.Info.ArtifactURI)),
         log4 ++ [Event.deleteArtifact (artifactRoot run.Info.ArtifactURI)]) := by
  obtain ⟨h5, h3⟩ := hWF
  unfold experimentArtifactStep
  simp only [sliceFrom, h5, if_true, SplitN_slice _ h3, Join_eq_intercalate]
  unfold artifactRoot
  cases w.DeleteArtifact
      (log4 ++ [Event.deleteArtifact
        ("/".toList.intercalate ((segments (run.Info.ArtifactURI.drop 5)).take 3))])
      ("/".toList.intercalate ((segments (run.Info.ArtifactURI.drop 5)).take 3)) <;> rfl

/-! ## The shape of `DeleteRun` with artifact deletion on -/

theorem DeleteRun_of_record_error (w : World) (log : List Event) (id : GoString)
    (flag : Bool) (err : GoError) (h : deleteRunRecord w log id = some err) :
    DeleteRun w log id flag = (Outcome.returned (some err), log ++ [deleteRunCall w id]) := by
  unfold deleteRunRecord at h
  unfold DeleteRun deleteRunCall
  dsimp only
  have hl := httpCall_log (α := Unit) w log "POST".toList
    (w.TrackingURL ++ "/api/2.0/mlflow/runs/delete".toList) jsonHeaders
    (some (Payload.deleteRunRequest id)) none
  revert hl h
  generalize httpCall (α := Unit) w log "POST".toList
    (w.TrackingURL ++ "/api/2.0/mlflow/runs/delete".toList) jsonHeaders
    (some (Payload.deleteRunRequest id)) none = r
  rcases r with ⟨e, v, l⟩
  rintro h rfl
  simp at h
  subst h
  simp

/-- After a successful run delete, `DeleteRun(id, true)` fetches the run and,
when the fetch succeeds, prints it and slices its URI. -/
theorem DeleteRun_true_of_record (w : World) (log : List Event) (id : GoString)
    (h : deleteRunRecord w log id = none) :
    DeleteRun w log id true
      = match fetchError w log id with
        | some err => (Outcome.returned (some err), log ++ [deleteRunCall w id, fetchRunCall w id])
        | none =>
          match sliceFrom (fetchedRun w log id).RunData.Info.ArtifactURI 5 with
          | none =>
            (Outcome.panicked,
              log ++ [deleteRunCall w id, fetchRunCall w id, Event.printRun (fetchedRun w log id)])
          | some path =>
            (Outcome.returned none,
              log ++ [deleteRunCall w id, fetchRunCall w id, Event.printRun (fetchedRun w log id),
                Event.deleteArtifact path]) := by
  unfold deleteRunRecord at h
  unfold fetchError fetchedRun
  unfold DeleteRun
  dsimp only
  have hl := httpCall_log (α := Unit) w log "POST".toList
    (w.TrackingURL ++ "/api/2.0/mlflow/runs/delete".toList) jsonHeaders
    (some (Payload.deleteRunRequest id)) none
  revert hl h
  generalize httpCall (α := Unit) w log "POST".toList
    (w.TrackingURL ++ "/api/2.0/mlflow/runs/delete".toList) jsonHeaders
    (some (Payload.deleteRunRequest id)) none = r
  rcases r with ⟨e, v, l⟩
  rintro h hl
  simp at h hl
  subst h hl
  have hl2 := SearchRunData_log w (log ++ [deleteRunCall w id]) id
  revert hl2
  show _ → (if true = true then
      match SearchRunData w (log ++ [deleteRunCall w id]) id with
      | (_, some err, log2) => _
      | (runDetail, none, log2) => _
    else _) = _
  generalize SearchRunData w (log ++ [deleteRunCall w id]) id = r
  rcases r with ⟨resp, e, l⟩
  rintro hl2
  simp at hl2
  subst hl2
  cases e with
  | some err => simp
  | none =>
    simp
    cases hs : sliceFrom resp.RunData.Info.ArtifactURI 5 with
    | none => simp
    | some path =>
      simp
      cases w.DeleteArtifact (log ++ [deleteRunCall w id, fetchRunCall w id,
        Event.printRun resp, Event.deleteArtifact path]) path <;> simp

/-- The outcome of `DeleteExperiment` once the experiment delete and the search
succeeded, on a well-formed first URI: the answer of the one artifact deletion. -/
theorem DeleteExperiment_outcome (w : World) (log : List Event) (id : GoString) (flag : Bool)
    (hExp : deleteExperimentRecord w log id = none) (hSearch : searchError w log id = none)
    (hWF : ∀ run ∈ (searchedRuns w log id).head?, WellFormedURI run.Info.ArtifactURI) :
    (DeleteExperiment w log id flag).1
      = Outcome.returned
          (match searchedRuns w log id with
           | [] => none
           | run :: _ =>
             w.DeleteArtifact (DeleteExperiment w log id flag).2
               (artifactRoot run.Info.ArtifactURI)) := by
  rw [DeleteExperiment_of_search w log id flag hExp hSearch]
  revert hWF
  cases searchedRuns w log id with
  | nil => intro _; rfl
  | cons run rest =>
    intro hWF
    rw [experimentArtifactStep_wellFormed w _ run rest (hWF run (by simp))]

/-- For a format without a percent sign, `fmt` prints the format itself. -/
theorem doPrintf_of_no_percent (format : GoString) (h : '%' ∉ format) :
    doPrintf false format = some format := by
  induction format with
  | nil => rfl
  | cons c cs ih =>
    have hc : c ≠ '%' := fun e => h (by simp [e])
    have hcs : '%' ∉ cs := fun e => h (by simp [e])
    simp [doPrintf, hc, ih hcs]

/-- The artifact step adds no HTTP call to the log: it adds nothing or one
artifact-store deletion. -/
theorem experimentArtifactStep_log (w : World) (log4 : List Event) (runs : List runResponse) :
    ∃ rest, (experimentArtifactStep w log4 runs).2 = log4 ++ rest ∧ httpCalls rest = [] := by
  unfold experimentArtifactStep
  split
  · exact ⟨[], by simp, rfl⟩
  · split
    · exact ⟨[], by simp, rfl⟩
    · split
      · exact ⟨[], by simp, rfl⟩
      · split
        · exact ⟨_, rfl, rfl⟩
        · exact ⟨_, rfl, rfl⟩

/-! ## The claims -/

/-- C1 (the code departs from it): `DeleteExperiment` never reads `deleteArtifact`.
In a world where experiment `12` has runs and every call succeeds,
`DeleteExperiment("12", false)` succeeds and still asks the artifact store to
delete `bucket/mlflow/12`. -/
theorem deleteExperiment_flag_false_still_deletes_artifacts :
    DeleteExperiment worldAllGood [] "12".toList false
        = DeleteExperiment worldAllGood [] "12".toList true
      ∧ (DeleteExperiment worldAllGood [] "12".toList false).1 = Outcome.returned none
      ∧ artifactDeletions (DeleteExperiment worldAllGood [] "12".toList false).2
          = ["bucket/mlflow/12".toList] := by
  decide

/-- C2 (the code departs from it): when the run delete and the fetch succeed
and the artifact store answers an error, `DeleteRun("r1", true)` returns `nil`. -/
theorem deleteRun_swallows_artifact_error :
    deleteRunRecord worldArtifactFails [] "r1".toList = none
      ∧ fetchError worldArtifactFails [] "r1".toList = none
      ∧ artifactDeletions (DeleteRun worldArtifactFails [] "r1".toList true).2
          = ["bucket/mlflow/12/abc/artifacts".toList]
      ∧ worldArtifactFails.DeleteArtifact (DeleteRun worldArtifactFails [] "r1".toList true).2
          "bucket/mlflow/12/abc/artifacts".toList
          = some (GoError.other "storage: permission denied".toList)
      ∧ (DeleteRun worldArtifactFails [] "r1".toList true).1 = Outcome.returned none := by
  decide

/-- C3: when the experiment delete and the search succeed and the first run
found has a well-formed artifact URI, the log of `DeleteExperiment(id, true)`
gains exactly one artifact-store deletion, and its path is the first three
segments of that URI without its first five bytes, joined with `/`. -/
theorem deleteExperiment_deletes_artifact_root_once (w : World) (log : List Event)
    (id : GoString) (run : runResponse) (rest : List runResponse)
    (hExp : deleteExperimentRecord w log id = none) (hSearch : searchError w log id = none)
    (hRuns : searchedRuns w log id = run :: rest)
    (hWF : WellFormedURI run.Info.ArtifactURI) :
    artifactDeletions (DeleteExperiment w log id true).2
      = artifactDeletions log
          ++ ["/".toList.intercalate ((segments (run.Info.ArtifactURI.drop 5)).take 3)] := by
  rw [DeleteExperiment_of_search w log id true hExp hSearch, hRuns,
    experimentArtifactStep_wellFormed w _ run rest hWF]
  simp [artifactDeletions_append, artifactDeletions_logAfterLoop, artifactDeletions,
    artifactRoot]

/-- C3 at the spec's example: the first run's URI is
`gs://bucket/mlflow/12/abc/artifacts` and the one deletion is `bucket/mlflow/12`. -/
theorem deleteExperiment_deletes_artifact_root_once_witness :
    artifactDeletions (DeleteExperiment worldAllGood [] "12".toList true).2
        = artifactDeletions []
          ++ ["/".toList.intercalate
              ((segments ("gs://bucket/mlflow/12/abc/artifacts".toList.drop 5)).take 3)]
      ∧ "/".toList.intercalate
          ((segments ("gs://bucket/mlflow/12/abc/artifacts".toList.drop 5)).take 3)
        = "bucket/mlflow/12".toList :=
  ⟨deleteExperiment_deletes_artifact_root_once worldAllGood [] "12".toList
      (mkRun "r1" "gs://bucket/mlflow/12/abc/artifacts")
      [mkRun "r2" "gs://bucket/mlflow/12/def/artifacts",
       mkRun "r3" "gs://bucket/mlflow/12/ghi/artifacts"]
      (by decide) (by decide) (by decide) (by decide),
    by decide⟩

/-- C4 (the code departs from it): on an artifact URI shorter than five bytes
(`gs:`) both `DeleteExperiment` and `DeleteRun(id, true)` panic on the slice
expression `ArtifactURI[5:]`; neither returns an error. -/
theorem short_uri_panics :
    deleteExperimentRecord worldShortURI [] "12".toList = none
      ∧ searchError worldShortURI [] "12".toList = none
      ∧ (searchedRuns worldShortURI [] "12".toList).map (·.Info.ArtifactURI) = ["gs:".toList]
      ∧ (DeleteExperiment worldShortURI [] "12".toList true).1 = Outcome.panicked
      ∧ (fetchedRun worldShortURI [] "r1".toList).RunData.Info.ArtifactURI = "gs:".toList
      ∧ (DeleteRun worldShortURI [] "r1".toList true).1 = Outcome.panicked := by
  decide

/-- C5 (the code departs from it): `httpCall` hands the decoded message to
`fmt.Errorf` as the format.  For the 404 body with message `100% done` the
error's text is `100%!d(MISSING)one`, not the message. -/
theorem httpCall_message_is_used_as_format :
    deleteRunRecord worldPercent [] "r1".toList = some (GoError.errorf "100% done".toList)
      ∧ (GoError.errorf "100% done".toList).Error = some "100%!d(MISSING)one".toList
      ∧ (GoError.errorf "100% done".toList).Error ≠ some "100% done".toList := by
  decide

/-- C6: `DeleteRun(id, true)` first calls `deleteRunRecord`; when that fails it
returns the failure and its log holds that one call only (no fetch, no
artifact-store call); when it succeeds the next call is `fetchRun(id)`, no
other HTTP call follows, and when the fetch succeeds with a URI of at least
five bytes the rest of the log is the print of the run and one artifact-store
deletion of the URI without its first five bytes. -/
theorem deleteRun_metadata_first (w : World) (log : List Event) (id : GoString) :
    (∃ rest, (DeleteRun w log id true).2 = log ++ deleteRunCall w id :: rest)
      ∧ (∀ err, deleteRunRecord w log id = some err →
          DeleteRun w log id true
            = (Outcome.returned (some err), log ++ [deleteRunCall w id]))
      ∧ (deleteRunRecord w log id = none →
          (∃ rest, (DeleteRun w log id true).2
              = log ++ [deleteRunCall w id, fetchRunCall w id] ++ rest
              ∧ httpCalls rest = [])
          ∧ (fetchError w log id = none →
              5 ≤ (fetchedRun w log id).RunData.Info.ArtifactURI.length →
              (DeleteRun w log id true).2
                = log ++ [deleteRunCall w id, fetchRunCall w id,
                    Event.printRun (fetchedRun w log id),
                    Event.deleteArtifact
                      ((fetchedRun w log id).RunData.Info.ArtifactURI.drop 5)])) := by
  have shape : deleteRunRecord w log id = none →
      (∃ rest, (DeleteRun w log id true).2
          = log ++ [deleteRunCall w id, fetchRunCall w id] ++ rest
          ∧ httpCalls rest = [])
      ∧ (fetchError w log id = none →
          5 ≤ (fetchedRun w log id).RunData.Info.ArtifactURI.length →
          (DeleteRun w log id true).2
            = log ++ [deleteRunCall w id, fetchRunCall w id,
                Event.printRun (fetchedRun w log id),
                Event.deleteArtifact
                  ((fetchedRun w log id).RunData.Info.ArtifactURI.drop 5)]) := by
    intro h
    rw [DeleteRun_true_of_record w log id h]
    constructor
    · cases fetchError w log id with
      | some err => exact ⟨[], by simp, rfl⟩
      | none =>
        cases sliceFrom (fetchedRun w log id).RunData.Info.ArtifactURI 5 with
        | none => exact ⟨[Event.printRun (fetchedRun w log id)], by simp, rfl⟩
        | some path =>
          exact ⟨[Event.printRun (fetchedRun w log id), Event.deleteArtifact path],
            by simp, rfl⟩
    · intro hf h5
      simp [hf, sliceFrom, h5]
  refine ⟨?_, fun err h => DeleteRun_of_record_error w log id true err h, shape⟩
  cases h : deleteRunRecord w log id with
  | some err => exact ⟨[], by rw [DeleteRun_of_record_error w log id true err h]⟩
  | none =>
    obtain ⟨rest, hr, _⟩ := (shape h).1
    exact ⟨fetchRunCall w id :: rest, by simp [hr]⟩

/-- C6 at an example: every call succeeds and the fetched URI is
`gs://bucket/mlflow/12/abc/artifacts`. -/
theorem deleteRun_metadata_first_witness :
    (DeleteRun worldAllGood [] "r1".toList true).2
      = [] ++ [deleteRunCall worldAllGood "r1".toList, fetchRunCall worldAllGood "r1".toList,
          Event.printRun (fetchedRun worldAllGood [] "r1".toList),
          Event.deleteArtifact
            ((fetchedRun worldAllGood [] "r1".toList).RunData.Info.ArtifactURI.drop 5)] :=
  ((deleteRun_metadata_first worldAllGood [] "r1".toList).2.2 (by decide)).2
    (by decide) (by decide)

/-- C7: when the experiment delete and the search succeed, the log of
`DeleteExperiment` continues with one `deleteRunRecord` call for each run
found, in the order found, whatever the outcome of each; then the failed ids
and the succeeded ids are printed, and no HTTP call follows.  The failed ids
are those whose own call failed (position by position), and the two lists
together are the found ids, each once. -/
theorem deleteExperiment_loop_never_aborts (w : World) (log : List Event) (id : GoString)
    (flag : Bool) (hExp : deleteExperimentRecord w log id = none)
    (hSearch : searchError w log id = none) :
    (∃ rest,
        (DeleteExperiment w log id flag).2
          = log ++ [deleteExperimentCall w id, searchRunsCall w id]
              ++ (foundIds w log id).map (deleteRunCall w)
              ++ [Event.println (idsMarked true (foundIds w log id) (runOutcomes w log id)),
                  Event.println (idsMarked false (foundIds w log id) (runOutcomes w log id))]
              ++ rest
        ∧ httpCalls rest = [])
      ∧ (∀ i, (runOutcomes w log id)[i]?
          = (foundIds w log id)[i]?.map (fun rid =>
              (deleteRunRecord w
                (log ++ [deleteExperimentCall w id, searchRunsCall w id]
                  ++ ((foundIds w log id).take i).map (deleteRunCall w)) rid).isSome))
      ∧ (idsMarked true (foundIds w log id) (runOutcomes w log id)
          ++ idsMarked false (foundIds w log id) (runOutcomes w log id)).Perm
          (foundIds w log id) := by
  refine ⟨?_, fun i => runDeleteFails_getElem? w _ _ i,
    idsMarked_perm _ _ (runDeleteFails_length w _ _)⟩
  rw [DeleteExperiment_of_search w log id flag hExp hSearch]
  obtain ⟨rest, hr, hc⟩ := experimentArtifactStep_log w
    (logAfterLoop w log id ((searchedRuns w log id).map (·.Info.RunId))) (searchedRuns w log id)
  exact ⟨rest, by rw [hr]; rfl, hc⟩

/-- C7 at the spec's example: runs `[r1, r2, r3]`, the delete of `r2` fails;
`r1` and `r3` are still attempted, `r2` is the failed list and `[r1, r3]` the
succeeded list. -/
theorem deleteExperiment_loop_never_aborts_witness :
    (∃ rest,
        (DeleteExperiment worldR2Fails [] "12".toList true).2
          = [] ++ [deleteExperimentCall worldR2Fails "12".toList,
                searchRunsCall worldR2Fails "12".toList]
              ++ (foundIds worldR2Fails [] "12".toList).map (deleteRunCall worldR2Fails)
              ++ [Event.println (idsMarked true (foundIds worldR2Fails [] "12".toList)
                    (runOutcomes worldR2Fails [] "12".toList)),
                  Event.println (idsMarked false (foundIds worldR2Fails [] "12".toList)
                    (runOutcomes worldR2Fails [] "12".toList))]
              ++ rest
        ∧ httpCalls rest = [])
      ∧ foundIds worldR2Fails [] "12".toList = ["r1".toList, "r2".toList, "r3".toList]
      ∧ runOutcomes worldR2Fails [] "12".toList = [false, true, false]
      ∧ idsMarked true (foundIds worldR2Fails [] "12".toList)
          (runOutcomes worldR2Fails [] "12".toList) = ["r2".toList]
      ∧ idsMarked false (foundIds worldR2Fails [] "12".toList)
          (runOutcomes worldR2Fails [] "12".toList) = ["r1".toList, "r3".toList] :=
  ⟨(deleteExperiment_loop_never_aborts worldR2Fails [] "12".toList true
      (by decide) (by decide)).1,
    by decide, by decide, by decide, by decide⟩

/-- C8: when `deleteExperimentRecord` fails, `DeleteExperiment` returns that
failure and its log holds the experiment-delete call only: no search, no run
delete, no artifact-store call, for either value of `deleteArtifact`. -/
theorem deleteExperiment_stops_on_record_failure (w : World) (log : List Event)
    (id : GoString) (flag : Bool) (err : GoError)
    (h : deleteExperimentRecord w log id = some err) :
    DeleteExperiment w log id flag
      = (Outcome.returned (some err), log ++ [deleteExperimentCall w id]) :=
  DeleteExperiment_of_record_error w log id flag err h

/-- C8 at an example: the tracking store answers 404 to the delete of
experiment `12`. -/
theorem deleteExperiment_stops_on_record_failure_witness :
    deleteExperimentRecord worldExperimentFails [] "12".toList
        = some (GoError.errorf "Experiment not found".toList)
      ∧ DeleteExperiment worldExperimentFails [] "12".toList true
        = (Outcome.returned (some (GoError.errorf "Experiment not found".toList)),
           [] ++ [deleteExperimentCall worldExperimentFails "12".toList]) :=
  ⟨by decide,
    deleteExperiment_stops_on_record_failure worldExperimentFails [] "12".toList true
      (GoError.errorf "Experiment not found".toList) (by decide)⟩

/-- C9: when the experiment delete and the search succeed and the search finds
no run, `DeleteExperiment(id, true)` returns success and its log holds the two
calls and the two prints of empty lists: no run delete, no artifact-store call. -/
theorem deleteExperiment_without_runs (w : World) (log : List Event) (id : GoString)
    (hExp : deleteExperimentRecord w log id = none) (hSearch : searchError w log id = none)
    (hEmpty : searchedRuns w log id = []) :
    DeleteExperiment w log id true
      = (Outcome.returned none,
         log ++ [deleteExperimentCall w id, searchRunsCall w id,
           Event.println [], Event.println []]) := by
  rw [DeleteExperiment_of_search w log id true hExp hSearch, hEmpty]
  simp [experimentArtifactStep, logAfterLoop, idsMarked, runDeleteFails]

/-- C9 at an example: experiment `12` has no runs. -/
theorem deleteExperiment_without_runs_witness :
    DeleteExperiment worldNoRuns [] "12".toList true
      = (Outcome.returned none,
         [] ++ [deleteExperimentCall worldNoRuns "12".toList,
           searchRunsCall worldNoRuns "12".toList, Event.println [], Event.println []]) :=
  deleteExperiment_without_runs worldNoRuns [] "12".toList (by decide) (by decide) (by decide)

/-- C10: when the experiment delete and the search succeed, the first run
found (if any) has a well-formed artifact URI and the artifact store answers
no error to the deletion of its artifact root (asked, when there is a run, at
the final log, whose last entry is that deletion), `DeleteExperiment` returns
success, whatever the outcomes of the run deletes. -/
theorem deleteExperiment_run_failures_not_escalated (w : World) (log : List Event)
    (id : GoString) (flag : Bool)
    (hExp : deleteExperimentRecord w log id = none) (hSearch : searchError w log id = none)
    (hWF : ∀ run ∈ (searchedRuns w log id).head?, WellFormedURI run.Info.ArtifactURI)
    (hArt : ∀ run ∈ (searchedRuns w log id).head?,
      w.DeleteArtifact (DeleteExperiment w log id flag).2
        (artifactRoot run.Info.ArtifactURI) = none) :
    (DeleteExperiment w log id flag).1 = Outcome.returned none := by
  rw [DeleteExperiment_outcome w log id flag hExp hSearch hWF]
  revert hArt
  cases searchedRuns w log id with
  | nil => intro _; rfl
  | cons run rest =>
    intro hArt
    simp [hArt run (by simp)]

/-- C10 at an example: the delete of each of the three runs fails and
`DeleteExperiment` still returns success. -/
theorem deleteExperiment_run_failures_not_escalated_witness :
    runOutcomes worldAllRunsFail [] "12".toList = [true, true, true]
      ∧ (DeleteExperiment worldAllRunsFail [] "12".toList true).1 = Outcome.returned none :=
  ⟨by decide,
    deleteExperiment_run_failures_not_escalated worldAllRunsFail [] "12".toList true
      (by decide) (by decide) (by decide) (fun _ _ => rfl)⟩

end Delete
